import Mathlib

/-
  Verification development for the Jobly orchestration core.

  The definitions below are a shallow embedding, in Lean, of the Python
  orchestration layer of the repository:
    - backend/jobly/orchestrator/coordinator.py   (AgentCoordinator)
    - backend/jobly/orchestrator/state_machine.py (StateMachine)
    - backend/jobly/workflows/approval_gate.py    (ApprovalGate)
    - backend/jobly/workflows/workflow_manager.py (WorkflowManager)
    - backend/jobly/agents/error_handler_agent.py (ErrorHandlerAgent)

  Python dictionaries are embedded as association lists (insertion order
  preserved, first-match lookup, in-place replacement on key reuse), Python
  heterogeneous values as the inductive type Value, Python floats as exact
  rationals, and raising code as Except-valued functions.  Wall-clock
  readings (datetime.utcnow) are passed in as explicit numeric parameters;
  uuid4-generated identifiers are passed in as explicit string parameters.
-/

namespace Jobly

/-- Python-style heterogeneous payload value: strings, ints, booleans,
floats (modelled as exact rationals), None, and nested string-keyed dicts. -/
inductive Value where
  | str (s : String)
  | int (n : Int)
  | bool (b : Bool)
  | rat (q : Rat)
  | pyNone
  | dict (entries : List (String × Value))
deriving Repr

/-- A Python dict with string keys and heterogeneous values, embedded as an
association list in insertion order. -/
abbrev Payload := List (String × Value)

/-- Lookup in a Python dict: first entry whose key matches. -/
def dlookup {α : Type} : List (String × α) → String → Option α
  | [], _ => none
  | (k, v) :: rest, key => if key = k then some v else dlookup rest key

/-- Python dict item assignment: replace the value in place if the key is
present (keeping its position), otherwise append a new entry. -/
def dinsert {α : Type} : List (String × α) → String → α → List (String × α)
  | [], key, val => [(key, val)]
  | (k, v) :: rest, key, val =>
    if key = k then (key, val) :: rest else (k, v) :: dinsert rest key val

/-- Python dict key deletion (removes every entry with the given key; a real
dict holds the key at most once). -/
def derase {α : Type} : List (String × α) → String → List (String × α)
  | [], _ => []
  | (k, v) :: rest, key =>
    if key = k then derase rest key else (k, v) :: derase rest key

/-- The keys of an embedded dict. -/
def dkeys {α : Type} (d : List (String × α)) : List String := d.map Prod.fst

/-- Python dict.update: apply the entries of the second dict left to right. -/
def dupdate {α : Type} (d c : List (String × α)) : List (String × α) :=
  List.foldl (fun acc p => dinsert acc p.1 p.2) d c

/-- Python dict.get with default None. -/
def vget (d : Payload) (key : String) : Value := (dlookup d key).getD Value.pyNone

/-- Python dict.get with an explicit default. -/
def vgetD (d : Payload) (key : String) (default : Value) : Value :=
  (dlookup d key).getD default

/-- Python truthiness on embedded values. -/
def pyTruthy : Value → Bool
  | .str s => !s.isEmpty
  | .int n => n != 0
  | .bool b => b
  | .rat q => q != 0
  | .pyNone => false
  | .dict d => !d.isEmpty

/-- Python `a or b` specialised to values: the first operand if truthy,
otherwise the second. -/
def pyOrValue (a b : Value) : Value := if pyTruthy a then a else b

/-- Numeric view used by Python equality: ints, booleans and floats compare
by numeric value (True == 1, 0 == 0.0, ...). -/
def pyNum : Value → Option Rat
  | .int n => some (n : Rat)
  | .bool b => some (if b then 1 else 0)
  | .rat q => some q
  | _ => none

mutual

/-- Python `==` on embedded values: strings by content, numbers (int, bool,
float) by numeric value across types, None only to None, dicts by key set
and pointwise-equal values (order-insensitive), everything else unequal. -/
def pyEq : Value → Value → Bool
  | .str a, .str b => a == b
  | .pyNone, .pyNone => true
  | .dict a, .dict b => pyEqEntries a b && a.length == b.length
  | va, vb =>
    match pyNum va, pyNum vb with
    | some x, some y => x == y
    | _, _ => false

/-- Every entry of the first dict has a pyEq-equal value under the same key
in the second dict. -/
def pyEqEntries : List (String × Value) → List (String × Value) → Bool
  | [], _ => true
  | (k, v) :: rest, b =>
    (match dlookup b k with
     | some w => pyEq v w
     | none => false) && pyEqEntries rest b

end

mutual

/-- Python repr of an embedded value (strings quoted, dicts rendered with
braces; float rendering is simplified to rational notation). -/
def pyRepr : Value → String
  | .str s => "\x27" ++ s ++ "\x27"
  | .int n => toString n
  | .bool b => if b then "True" else "False"
  | .rat q => toString q
  | .pyNone => "None"
  | .dict d => "\x7b" ++ String.intercalate ", " (pyReprEntries d) ++ "\x7d"

/-- Rendered entries of a dict, in order. -/
def pyReprEntries : List (String × Value) → List String
  | [] => []
  | (k, v) :: rest => ("\x27" ++ k ++ "\x27: " ++ pyRepr v) :: pyReprEntries rest

end

/-- Python str() of an embedded value: a string is itself, anything else its
repr. -/
def pyStr : Value → String
  | .str s => s
  | v => pyRepr v

/-- Whether the first character list starts with the pattern. -/
def charsStartWith : List Char → List Char → Bool
  | [], _ => true
  | _ :: _, [] => false
  | a :: as, b :: bs => a == b && charsStartWith as bs

/-- Whether the pattern occurs anywhere in the character list. -/
def charsOccur (pat : List Char) : List Char → Bool
  | [] => pat.isEmpty
  | c :: rest => charsStartWith pat (c :: rest) || charsOccur pat rest

/-- Python substring containment: pat in s. -/
def strContains (s pat : String) : Bool := charsOccur pat.data s.data

section DictLemmas

variable {α : Type}

theorem dlookup_dinsert (d : List (String × α)) (k : String) (v : α) (key : String) :
    dlookup (dinsert d k v) key = if key = k then some v else dlookup d key := by
  induction d with
  | nil => simp [dinsert, dlookup]
  | cons p rest ih =>
    obtain ⟨k0, v0⟩ := p
    by_cases hk : k = k0
    · subst hk
      by_cases hkey : key = k <;> simp [dinsert, dlookup, hkey]
    · by_cases hkey : key = k0
      · subst hkey
        simp [dinsert, dlookup, hk, Ne.symm hk]
      · simp [dinsert, dlookup, hk, hkey, ih]

theorem dlookup_derase (d : List (String × α)) (k : String) (key : String) :
    dlookup (derase d k) key = if key = k then none else dlookup d key := by
  induction d with
  | nil => simp [derase, dlookup]
  | cons p rest ih =>
    obtain ⟨k0, v0⟩ := p
    by_cases hk : k = k0
    · subst hk
      by_cases hkey : key = k
      · subst hkey; simp [derase, dlookup, ih]
      · simp [derase, dlookup, hkey, ih]
    · by_cases hkey : key = k0
      · subst hkey
        have hne : ¬ key = k := fun hh => hk hh.symm
        simp [derase, dlookup, hk, hne, ih]
      · simp [derase, dlookup, hk, hkey, ih]

theorem mem_dkeys_iff_dlookup {d : List (String × α)} {key : String} :
    key ∈ dkeys d ↔ (dlookup d key).isSome := by
  induction d with
  | nil => simp [dkeys, dlookup]
  | cons p rest ih =>
    obtain ⟨k0, v0⟩ := p
    by_cases hkey : key = k0
    · subst hkey; simp [dkeys, dlookup]
    · simp only [dkeys, List.map_cons, List.mem_cons, hkey, false_or, dlookup,
        if_neg hkey]
      exact ih

theorem dlookup_eq_none_of_not_mem {d : List (String × α)} {key : String}
    (h : key ∉ dkeys d) : dlookup d key = none := by
  rcases hc : dlookup d key with _ | v
  · rfl
  · exact absurd (mem_dkeys_iff_dlookup.2 (by simp [hc])) h

theorem dinsert_eq_append_of_not_mem {d : List (String × α)} {k : String} (v : α)
    (h : k ∉ dkeys d) : dinsert d k v = d ++ [(k, v)] := by
  induction d with
  | nil => simp [dinsert]
  | cons p rest ih =>
    obtain ⟨k0, v0⟩ := p
    simp only [dkeys, List.map_cons, List.mem_cons] at h
    push_neg at h
    simp [dinsert, h.1, ih (by simp [dkeys, h.2])]

theorem mem_of_mem_dinsert {d : List (String × α)} {k : String} {v : α}
    {p : String × α} (h : p ∈ dinsert d k v) : p = (k, v) ∨ p ∈ d := by
  induction d with
  | nil =>
    simp only [dinsert, List.mem_singleton] at h
    exact Or.inl h
  | cons q rest ih =>
    obtain ⟨k0, v0⟩ := q
    by_cases hk : k = k0
    · simp only [dinsert, if_pos hk] at h
      rcases List.mem_cons.mp h with h1 | h1
      · exact Or.inl h1
      · exact Or.inr (List.mem_cons_of_mem _ h1)
    · simp only [dinsert, if_neg hk] at h
      rcases List.mem_cons.mp h with h1 | h1
      · exact Or.inr (List.mem_cons.mpr (Or.inl h1))
      · rcases ih h1 with h2 | h2
        · exact Or.inl h2
        · exact Or.inr (List.mem_cons_of_mem _ h2)

theorem mem_of_mem_derase {d : List (String × α)} {k : String}
    {p : String × α} (h : p ∈ derase d k) : p ∈ d := by
  induction d with
  | nil => simp [derase] at h
  | cons q rest ih =>
    obtain ⟨k0, v0⟩ := q
    by_cases hk : k = k0
    · simp only [derase, if_pos hk] at h
      exact List.mem_cons_of_mem _ (ih h)
    · simp only [derase, if_neg hk, List.mem_cons] at h
      rcases h with h | h
      · simp [h]
      · exact List.mem_cons_of_mem _ (ih h)

theorem mem_dkeys_dinsert {d : List (String × α)} {k : String} {v : α} {key : String}
    (h : key ∈ dkeys (dinsert d k v)) : key = k ∨ key ∈ dkeys d := by
  rw [dkeys, List.mem_map] at h
  obtain ⟨p, hp, hpk⟩ := h
  rcases mem_of_mem_dinsert hp with h1 | h1
  · subst h1; exact Or.inl hpk.symm
  · exact Or.inr (by rw [dkeys, List.mem_map]; exact ⟨p, h1, hpk⟩)

theorem mem_dkeys_derase {d : List (String × α)} {k key : String}
    (h : key ∈ dkeys (derase d k)) : key ∈ dkeys d := by
  rw [dkeys, List.mem_map] at h
  obtain ⟨p, hp, hpk⟩ := h
  rw [dkeys, List.mem_map]
  exact ⟨p, mem_of_mem_derase hp, hpk⟩

theorem dlookup_dupdate (d c : List (String × α)) (key : String)
    (hc : (dkeys c).Nodup) :
    dlookup (dupdate d c) key = (dlookup c key).or (dlookup d key) := by
  induction c generalizing d with
  | nil => simp [dupdate, dlookup]
  | cons p rest ih =>
    obtain ⟨k0, v0⟩ := p
    simp only [dkeys, List.map_cons, List.nodup_cons] at hc
    have hrest : (dkeys rest).Nodup := hc.2
    have hstep : dupdate d ((k0, v0) :: rest) = dupdate (dinsert d k0 v0) rest := by
      simp [dupdate]
    rw [hstep, ih _ hrest]
    by_cases hkey : key = k0
    · subst hkey
      have hnot : dlookup rest key = none := by
        apply dlookup_eq_none_of_not_mem
        intro hmem
        exact hc.1 (by simpa [dkeys] using hmem)
      simp [dlookup, hnot, dlookup_dinsert]
    · simp [dlookup, hkey, dlookup_dinsert]

end DictLemmas

/-! ## Process state machine (orchestrator/state_machine.py) -/

/-- The WorkflowState enumeration. -/
inductive WorkflowState where
  | init
  | profile_parsing
  | job_search
  | job_ranking
  | document_prep
  | contact_discovery
  | outreach
  | application
  | interview
  | offer
  | complete
  | error
deriving DecidableEq, Repr

/-- The fixed allowed-transitions table built in StateMachine.__init__
(sets embedded as lists). -/
def allowed_transitions : WorkflowState → List WorkflowState
  | .init => [.profile_parsing, .job_search, .error]
  | .profile_parsing => [.job_search, .error]
  | .job_search => [.job_ranking, .error]
  | .job_ranking => [.document_prep, .error]
  | .document_prep => [.contact_discovery, .application, .error]
  | .contact_discovery => [.outreach, .error]
  | .outreach => [.application, .error]
  | .application => [.interview, .complete, .error]
  | .interview => [.offer, .complete, .error]
  | .offer => [.complete, .error]
  | .complete => [.init]
  | .error => [.init]

/-- StateMachine instance state: current state, visited-state history, and
the string-keyed context map. -/
structure StateMachine where
  current_state : WorkflowState
  state_history : List WorkflowState
  context : Payload
deriving Repr

/-- StateMachine.__init__: current state is the initial state, history holds
just the initial state, context is empty. -/
def StateMachine.new (initial_state : WorkflowState) : StateMachine :=
  ⟨initial_state, [initial_state], []⟩

/-- StateMachine.can_transition_to: look the current state up in the table;
a missing or empty entry (Python falsiness) reports false, otherwise test
membership of the target. -/
def StateMachine.can_transition_to (m : StateMachine) (target_state : WorkflowState) : Bool :=
  let allowed := allowed_transitions m.current_state
  if allowed.isEmpty then false
  else decide (target_state ∈ allowed)

/-- StateMachine.transition: reject (returning false, mutating nothing) if
can_transition_to fails; otherwise set the current state, append the target
to the history, and dict.update the context with the supplied context if it
is truthy (Python: if context:). -/
def StateMachine.transition (m : StateMachine) (new_state : WorkflowState)
    (context : Option Payload) : Bool × StateMachine :=
  if !(m.can_transition_to new_state) then (false, m)
  else
    let ctx := match context with
      | some c => if c.isEmpty then m.context else dupdate m.context c
      | none => m.context
    (true, ⟨new_state, m.state_history ++ [new_state], ctx⟩)

/-- Every state in the table has at least one outgoing transition, so the
Python falsiness guard in can_transition_to never fires. -/
theorem allowed_transitions_ne_nil (s : WorkflowState) : allowed_transitions s ≠ [] := by
  cases s <;> simp [allowed_transitions]

theorem can_transition_to_iff (m : StateMachine) (t : WorkflowState) :
    m.can_transition_to t = true ↔ t ∈ allowed_transitions m.current_state := by
  unfold StateMachine.can_transition_to
  have h := allowed_transitions_ne_nil m.current_state
  simp [List.isEmpty_iff, h]

/-- Claim C2: transition(target, context) succeeds iff target is in the
allowed-transitions set of the current state; on success the current state
becomes target, exactly one entry (target) is appended to the history, and
each supplied context key is merged into the stored context overwriting
same-named keys; on failure it returns false and leaves current state,
history and context all unchanged (the function is total, raising nothing). -/
theorem stateMachine_transition_correct (m : StateMachine) (t : WorkflowState)
    (c : Payload) (hc : (dkeys c).Nodup) :
    ((m.transition t (some c)).1 = true ↔ t ∈ allowed_transitions m.current_state)
    ∧ (t ∈ allowed_transitions m.current_state →
        ((m.transition t (some c)).2.current_state = t
          ∧ (m.transition t (some c)).2.state_history = m.state_history ++ [t]
          ∧ ∀ k, dlookup (m.transition t (some c)).2.context k
              = (dlookup c k).or (dlookup m.context k)))
    ∧ (t ∉ allowed_transitions m.current_state → m.transition t (some c) = (false, m)) := by
  have hcan := can_transition_to_iff m t
  by_cases hmem : t ∈ allowed_transitions m.current_state
  · have hcan1 : m.can_transition_to t = true := hcan.mpr hmem
    refine ⟨by simp [StateMachine.transition, hcan1, hmem], fun _ => ?_, fun hno => absurd hmem hno⟩
    by_cases hce : c.isEmpty
    · have hcnil : c = [] := by simpa [List.isEmpty_iff] using hce
      subst hcnil
      refine ⟨by simp [StateMachine.transition, hcan1], by simp [StateMachine.transition, hcan1], ?_⟩
      intro k
      simp [StateMachine.transition, hcan1, dlookup]
    · refine ⟨by simp [StateMachine.transition, hcan1, hce],
        by simp [StateMachine.transition, hcan1, hce], ?_⟩
      intro k
      simp only [StateMachine.transition, hcan1, Bool.not_true, Bool.false_eq_true,
        if_false, hce, Bool.false_eq_true, if_false]
      exact dlookup_dupdate m.context c k hc
  · have hcan0 : m.can_transition_to t = false := by
      rcases hb : m.can_transition_to t with _ | _
      · rfl
      · exact absurd (hcan.mp hb) hmem
    refine ⟨?_, fun hmem1 => absurd hmem1 hmem, fun _ => ?_⟩
    · simp [StateMachine.transition, hcan0, hmem]
    · simp [StateMachine.transition, hcan0]

/-- Witness for C2 at a concrete machine: from the init state, transitioning
to profile_parsing with context merging a fresh key succeeds and behaves as
stated. -/
theorem stateMachine_transition_correct_witness :
    ((dkeys [(("stage" : String), Value.int 1)]).Nodup
      ∧ WorkflowState.profile_parsing ∈ allowed_transitions (StateMachine.new .init).current_state)
    ∧ (((StateMachine.new .init).transition .profile_parsing
          (some [("stage", Value.int 1)])).1 = true
        ↔ WorkflowState.profile_parsing
            ∈ allowed_transitions (StateMachine.new .init).current_state)
    ∧ (WorkflowState.profile_parsing ∈ allowed_transitions (StateMachine.new .init).current_state →
        (((StateMachine.new .init).transition .profile_parsing
            (some [("stage", Value.int 1)])).2.current_state = .profile_parsing
          ∧ ((StateMachine.new .init).transition .profile_parsing
              (some [("stage", Value.int 1)])).2.state_history
              = (StateMachine.new .init).state_history ++ [.profile_parsing]
          ∧ ∀ k, dlookup ((StateMachine.new .init).transition .profile_parsing
              (some [("stage", Value.int 1)])).2.context k
              = (dlookup [("stage", Value.int 1)] k).or
                  (dlookup (StateMachine.new .init).context k))) := by
  have hhyp : (dkeys [(("stage" : String), Value.int 1)]).Nodup := by
    simp [dkeys]
  have hmem : WorkflowState.profile_parsing
      ∈ allowed_transitions (StateMachine.new .init).current_state := by
    simp [StateMachine.new, allowed_transitions]
  have h := stateMachine_transition_correct (StateMachine.new .init) .profile_parsing
    [("stage", Value.int 1)] hhyp
  exact ⟨⟨hhyp, hmem⟩, h.1, h.2.1⟩

/-! ## Coordinator (orchestrator/coordinator.py)

An agent's execute is embedded as a function from the running payload to
Except String Payload: a normal return is ok, a raised exception is error
carrying str(exc).  The registry maps agent names to such behaviors.  The
wall-clock started_at/finished_at fields of an execution record are readings
of datetime.utcnow and are not modelled; the claims only concern the agent
name, status and resulting payload of a record. -/

/-- The behavior of one agent's execute. -/
abbrev AgentBeh := Payload → Except String Payload

/-- One entry of AgentCoordinator.execution_history (timestamps omitted,
see above). -/
structure ExecutionRecord where
  agent : String
  status : String
  result : Payload
deriving Repr

/-- The synthesized error payload built when an agent raises. -/
def error_payload (agent_name msg : String) : Payload :=
  [("status", Value.str "error"), ("error", Value.str msg), ("agent", Value.str agent_name)]

/-- The result recorded for a step whose agent name is not registered. -/
def skipped_result : Payload :=
  [("status", Value.str "skipped"), ("reason", Value.str "agent not registered")]

/-- Python `d or \x7b\x7d` on a dict: an empty dict is replaced by an empty
dict, so this is the identity on embedded dicts. -/
def pyOrEmptyDict (d : Payload) : Payload := if d.isEmpty then [] else d

theorem pyOrEmptyDict_eq (d : Payload) : pyOrEmptyDict d = d := by
  cases d <;> simp [pyOrEmptyDict]

/-- One iteration of the loop body of AgentCoordinator.execute_workflow,
acting on the pair (running payload, execution history). -/
def exec_step (agents : List (String × AgentBeh))
    (acc : Payload × List ExecutionRecord) (agent_name : String) :
    Payload × List ExecutionRecord :=
  match dlookup agents agent_name with
  | some beh =>
    match beh acc.1 with
    | Except.ok out => (out, acc.2 ++ [⟨agent_name, "success", out⟩])
    | Except.error msg =>
      (error_payload agent_name msg,
        acc.2 ++ [⟨agent_name, "error", error_payload agent_name msg⟩])
  | none => (acc.1, acc.2 ++ [⟨agent_name, "skipped", skipped_result⟩])

/-- AgentCoordinator.execute_workflow: start from `input_data or \x7b\x7d`,
run every step in order, return `result or \x7b\x7d` together with the
execution history (history0 is the coordinator's history before the call;
records are appended to it). -/
def execute_workflow (agents : List (String × AgentBeh))
    (history0 : List ExecutionRecord) (workflow : List String) (input_data : Payload) :
    Payload × List ExecutionRecord :=
  let run := List.foldl (exec_step agents) (pyOrEmptyDict input_data, history0) workflow
  (pyOrEmptyDict run.1, run.2)

theorem execute_workflow_eq_foldl (agents : List (String × AgentBeh))
    (history0 : List ExecutionRecord) (workflow : List String) (input_data : Payload) :
    execute_workflow agents history0 workflow input_data
      = List.foldl (exec_step agents) (input_data, history0) workflow := by
  simp [execute_workflow, pyOrEmptyDict_eq]

/-- Claim C1: when a step's agent is registered and its execute raises, the
running payload becomes the synthesized error payload, one record with
status "error" is appended, and the remaining steps run with that error
payload as their input — a single failure never aborts the workflow. -/
theorem coordinator_error_step_continues (agents : List (String × AgentBeh))
    (beh : AgentBeh) (name msg : String) (pre post : List String)
    (input : Payload) (h0 : List ExecutionRecord)
    (hreg : dlookup agents name = some beh)
    (hfail : beh (execute_workflow agents h0 pre input).1 = Except.error msg) :
    execute_workflow agents h0 (pre ++ name :: post) input
      = execute_workflow agents
          ((execute_workflow agents h0 pre input).2
            ++ [⟨name, "error", error_payload name msg⟩])
          post (error_payload name msg) := by
  simp only [execute_workflow_eq_foldl] at hfail ⊢
  rw [List.foldl_append]
  have hpair : List.foldl (exec_step agents) (input, h0) pre
      = ((List.foldl (exec_step agents) (input, h0) pre).1,
         (List.foldl (exec_step agents) (input, h0) pre).2) := rfl
  rw [hpair, List.foldl_cons]
  congr 1
  simp [exec_step, hreg, hfail]

/-- Witness for C1: a two-step workflow whose first agent raises; the second
step still runs, on the error payload. -/
theorem coordinator_error_step_continues_witness :
    (dlookup [(("boom" : String), (fun _ => Except.error "kaput" : AgentBeh)),
        (("tag" : String), (fun p => Except.ok (dinsert p "tagged" (Value.bool true)) : AgentBeh))]
        "boom"
      = some (fun _ => Except.error "kaput" : AgentBeh))
    ∧ ((fun _ => Except.error "kaput" : AgentBeh)
        (execute_workflow [(("boom" : String), (fun _ => Except.error "kaput" : AgentBeh)),
          (("tag" : String), (fun p => Except.ok (dinsert p "tagged" (Value.bool true)) : AgentBeh))]
          [] [] []).1
      = Except.error "kaput")
    ∧ execute_workflow [(("boom" : String), (fun _ => Except.error "kaput" : AgentBeh)),
        (("tag" : String), (fun p => Except.ok (dinsert p "tagged" (Value.bool true)) : AgentBeh))]
        [] ([] ++ "boom" :: ["tag"]) []
      = execute_workflow [(("boom" : String), (fun _ => Except.error "kaput" : AgentBeh)),
          (("tag" : String), (fun p => Except.ok (dinsert p "tagged" (Value.bool true)) : AgentBeh))]
          ((execute_workflow [(("boom" : String), (fun _ => Except.error "kaput" : AgentBeh)),
              (("tag" : String), (fun p => Except.ok (dinsert p "tagged" (Value.bool true)) : AgentBeh))]
              [] [] []).2
            ++ [⟨"boom", "error", error_payload "boom" "kaput"⟩])
          ["tag"] (error_payload "boom" "kaput") := by
  refine ⟨rfl, rfl, ?_⟩
  exact coordinator_error_step_continues _ _ "boom" "kaput" [] ["tag"] [] [] rfl rfl

/-- Claim C8: a step naming an unregistered agent appends exactly one record
with status "skipped" and result \x7bstatus: skipped, reason: agent not
registered\x7d, and the running payload passed to the remaining steps is
exactly the payload from before that step. -/
theorem coordinator_skipped_step (agents : List (String × AgentBeh))
    (name : String) (pre post : List String) (input : Payload)
    (h0 : List ExecutionRecord)
    (hunreg : dlookup agents name = none) :
    execute_workflow agents h0 (pre ++ name :: post) input
      = execute_workflow agents
          ((execute_workflow agents h0 pre input).2 ++ [⟨name, "skipped", skipped_result⟩])
          post (execute_workflow agents h0 pre input).1 := by
  simp only [execute_workflow_eq_foldl]
  rw [List.foldl_append]
  have hpair : List.foldl (exec_step agents) (input, h0) pre
      = ((List.foldl (exec_step agents) (input, h0) pre).1,
         (List.foldl (exec_step agents) (input, h0) pre).2) := rfl
  rw [hpair, List.foldl_cons]
  congr 1
  simp [exec_step, hunreg]

/-- Witness for C8: a singleton workflow naming an unregistered agent leaves
the payload unchanged and logs one skipped record. -/
theorem coordinator_skipped_step_witness :
    (dlookup ([] : List (String × AgentBeh)) "ghost" = none)
    ∧ execute_workflow ([] : List (String × AgentBeh)) []
        ([] ++ "ghost" :: []) [("x", Value.int 1)]
      = execute_workflow ([] : List (String × AgentBeh))
          ((execute_workflow ([] : List (String × AgentBeh)) [] [] [("x", Value.int 1)]).2
            ++ [⟨"ghost", "skipped", skipped_result⟩])
          [] (execute_workflow ([] : List (String × AgentBeh)) [] [] [("x", Value.int 1)]).1 := by
  refine ⟨rfl, ?_⟩
  exact coordinator_skipped_step [] "ghost" [] [] [("x", Value.int 1)] [] rfl

/-- The payload transition of a single step, ignoring the history. -/
def payload_step (agents : List (String × AgentBeh)) (p : Payload) (name : String) : Payload :=
  (exec_step agents (p, []) name).1

theorem exec_step_fst (agents : List (String × AgentBeh))
    (acc : Payload × List ExecutionRecord) (name : String) :
    (exec_step agents acc name).1 = payload_step agents acc.1 name := by
  obtain ⟨p, hist⟩ := acc
  dsimp only [payload_step, exec_step]
  rcases dlookup agents name with _ | beh
  · rfl
  · rcases hb : beh p with msg | out <;> simp [hb]

/-- Claim C9: the Coordinator's run returns the last running payload after
processing all steps (the fold of the per-step payload transitions over the
name list), and on an empty name list it returns the original input
unchanged, with no record appended. -/
theorem coordinator_returns_last_payload (agents : List (String × AgentBeh))
    (h0 : List ExecutionRecord) (workflow : List String) (input : Payload) :
    (execute_workflow agents h0 workflow input).1
        = List.foldl (payload_step agents) input workflow
    ∧ execute_workflow agents h0 [] input = (input, h0) := by
  constructor
  · rw [execute_workflow_eq_foldl]
    induction workflow generalizing input h0 with
    | nil => rfl
    | cons a rest ih =>
      rw [List.foldl_cons, List.foldl_cons]
      have hstep : exec_step agents (input, h0) a
          = ((exec_step agents (input, h0) a).1, (exec_step agents (input, h0) a).2) := rfl
      rw [hstep, ih]
      rw [exec_step_fst]
  · rw [execute_workflow_eq_foldl]
    rfl

/-! ## Error Policy agent (agents/error_handler_agent.py)

ErrorHandlerAgent.execute is embedded as a pure function of the (already
int()/float()-converted) configuration, the agent's private state and the
input payload.  Python code that raises (int() on a non-numeric value,
0.0 to a negative power) is modelled in the Except monad. -/

/-- The transient-message vocabulary of ErrorHandlerAgent.execute. -/
def transient_keywords : List String :=
  ["timeout", "temporar", "rate limit", "connection", "quota"]

/-- The transient code set of ErrorHandlerAgent.execute. -/
def transient_codes : List String := ["timeout", "retry", "throttled", "rate_limit"]

/-- Python int() truncation of a float (toward zero). -/
def pyTruncRat (q : Rat) : Int := if q < 0 then ⌈q⌉ else ⌊q⌋

/-- Python int(value): ints pass through, booleans became 0/1, floats
truncate, numeric strings parse, anything else raises. -/
def pyToInt : Value → Except String Int
  | .int n => Except.ok n
  | .bool b => Except.ok (if b then 1 else 0)
  | .rat q => Except.ok (pyTruncRat q)
  | .str s =>
    match s.trim.toInt? with
    | some n => Except.ok n
    | none => Except.error ("invalid literal for int with base 10: " ++ s)
  | .pyNone => Except.error "int argument must not be None"
  | .dict _ => Except.error "int argument must not be a dict"

/-- Python float exponentiation base ** e for an integer e: raising 0.0 to a
negative power raises ZeroDivisionError, everything else is exact. -/
def pyPow (base : Rat) (e : Int) : Except String Rat :=
  if base = 0 ∧ e < 0 then Except.error "0.0 cannot be raised to a negative power"
  else Except.ok (base ^ e)

/-- The error handler configuration after the int()/float() conversions at
the top of execute (max_retries default 3, backoff_factor default 2.0,
base_delay_seconds default 1.0). -/
structure EHConfig where
  max_retries : Int
  backoff_factor : Rat
  base_delay_seconds : Rat
deriving Repr

/-- The default configuration values. -/
def default_config : EHConfig := ⟨3, 2, 1⟩

/-- One entry of the agent's bounded error history. -/
structure ErrorRecordS where
  message : String
  code : String
  retry_count : Int
  transient : Bool
deriving Repr, DecidableEq

/-- The agent's private state touched by execute: the bounded error list and
the last-error pointer. -/
structure EHState where
  errors : List ErrorRecordS
  last_error : Option ErrorRecordS
deriving Repr, DecidableEq

/-- The last n elements of a list (Python slice l[-n:]). -/
def lastN {α : Type} (n : Nat) (l : List α) : List α := l.drop (l.length - n)

/-- Python str.lower(), character by character (ASCII-faithful). -/
def strLower (s : String) : String := ⟨s.data.map Char.toLower⟩

/-- Line error_info = input_data.get("error") or input_data.get("exception")
or input_data. -/
def error_info_of (input_data : Payload) : Value :=
  pyOrValue (vget input_data "error")
    (pyOrValue (vget input_data "exception") (Value.dict input_data))

/-- The extracted message: for dict-shaped error info,
str(get "message" or get "detail" or ""); for truthy non-dict info, str of
it; otherwise the initial empty string. -/
def message_of : Value → String
  | .dict d => pyStr (pyOrValue (vget d "message") (pyOrValue (vget d "detail") (.str "")))
  | v => if pyTruthy v then pyStr v else ""

/-- The extracted code: only dict-shaped error info carries one
(str(get "code" or get "type" or "").lower()). -/
def code_of : Value → String
  | .dict d =>
    strLower (pyStr (pyOrValue (vget d "code") (pyOrValue (vget d "type") (.str ""))))
  | _ => ""

/-- The transient classification: keyword containment in the lowercased
message (only checked when the message is truthy) or code membership. -/
def is_transient_of (message code : String) : Bool :=
  (if !message.isEmpty then
      transient_keywords.any (fun kw => strContains (strLower message) kw)
    else false)
  || transient_codes.contains code

/-- ErrorHandlerAgent.execute: derive error info, retry count, message and
code; classify; decide the retry; compute the backoff delay only when
retrying; append the error record to the bounded history; and return the
retry / failed / success result dict together with the updated state. -/
def ErrorHandlerAgent.execute (cfg : EHConfig) (st : EHState) (input_data : Payload) :
    Except String (Payload × EHState) :=
  match pyToInt (pyOrValue (vget input_data "retry_count") (Value.int 0)) with
  | Except.error e => Except.error e
  | Except.ok retry_count =>
    let error_info := error_info_of input_data
    let message := message_of error_info
    let code := code_of error_info
    let is_transient := is_transient_of message code
    let should_retry := is_transient && decide (retry_count < cfg.max_retries)
    match (if should_retry then
        (pyPow cfg.backoff_factor retry_count).map
          (fun p => cfg.base_delay_seconds * p)
      else Except.ok 0) with
    | Except.error e => Except.error e
    | Except.ok delay_seconds =>
      let error_record : ErrorRecordS := ⟨message, code, retry_count, is_transient⟩
      let st2 : EHState := ⟨lastN 20 (st.errors ++ [error_record]), some error_record⟩
      if should_retry then
        Except.ok ([("status", Value.str "retry"),
          ("recovery", Value.dict [("action", Value.str "retry"),
            ("retry_count", Value.int (retry_count + 1)),
            ("delay_seconds", Value.rat delay_seconds),
            ("transient", Value.bool true)])], st2)
      else
        Except.ok ([("status", Value.str (if pyTruthy error_info then "failed" else "success")),
          ("recovery", Value.dict [("action",
              Value.str (if pyTruthy error_info then "halt" else "noop")),
            ("retry_count", Value.int retry_count),
            ("transient", Value.bool is_transient)])], st2)

theorem is_transient_iff (message code : String) :
    is_transient_of message code = true
      ↔ ((∃ kw ∈ transient_keywords, strContains (strLower message) kw = true)
          ∨ code ∈ transient_codes) := by
  unfold is_transient_of
  by_cases hm : message.isEmpty
  · have hmsg : message = "" := (String.isEmpty_iff message).mp hm
    subst hmsg
    have hkw : ¬ ∃ kw ∈ transient_keywords, strContains (strLower "") kw = true := by decide
    simp only [hm, Bool.not_true, Bool.false_eq_true, if_false, Bool.false_or]
    constructor
    · intro hc
      exact Or.inr (by simpa using hc)
    · intro hc
      rcases hc with hc | hc
      · exact absurd hc hkw
      · simpa using hc
  · simp only [hm, Bool.not_false, if_true, Bool.or_eq_true, List.any_eq_true]
    constructor
    · intro hc
      rcases hc with hc | hc
      · exact Or.inl hc
      · exact Or.inr (by simpa using hc)
    · intro hc
      rcases hc with hc | hc
      · exact Or.inl hc
      · exact Or.inr (by simpa using hc)

/-- Claim C7 (amended): for every input on which execute returns normally,
the error is classified transient iff the lowercased extracted message
contains one of the five keyword substrings or the extracted code is one of
the four transient codes; should-retry holds iff transient and
retryCount < maxRetries; when retrying the result has status "retry" with
next retry count retryCount+1 and delay baseDelay * backoffFactor^retryCount;
when the derived error information is truthy but the step does not retry the
status is "failed" (the result carries no retry delay); and when the derived
error information is falsy — no truthy error or exception value and an empty
input payload, the code treating a non-empty input itself as the supplied
error information — the status is "success" with a noop recovery action. -/
theorem errorHandler_execute_spec (cfg : EHConfig) (st : EHState)
    (input out : Payload) (st2 : EHState) (rc : Int) (info : Value)
    (msg cd : String) (tr sr : Bool)
    (hrc : pyToInt (pyOrValue (vget input "retry_count") (Value.int 0)) = Except.ok rc)
    (h : ErrorHandlerAgent.execute cfg st input = Except.ok (out, st2))
    (hinfo : info = error_info_of input)
    (hmsg : msg = message_of info)
    (hcd : cd = code_of info)
    (htr : tr = is_transient_of msg cd)
    (hsr : sr = (tr && decide (rc < cfg.max_retries))) :
    (tr = true
      ↔ ((∃ kw ∈ transient_keywords, strContains (strLower msg) kw = true)
          ∨ cd ∈ transient_codes))
    ∧ (sr = true ↔ (tr = true ∧ rc < cfg.max_retries))
    ∧ (sr = true →
        out = [("status", Value.str "retry"),
          ("recovery", Value.dict [("action", Value.str "retry"),
            ("retry_count", Value.int (rc + 1)),
            ("delay_seconds", Value.rat (cfg.base_delay_seconds * cfg.backoff_factor ^ rc)),
            ("transient", Value.bool true)])])
    ∧ (sr = false → pyTruthy info = true →
        out = [("status", Value.str "failed"),
          ("recovery", Value.dict [("action", Value.str "halt"),
            ("retry_count", Value.int rc),
            ("transient", Value.bool tr)])])
    ∧ (sr = false → pyTruthy info = false →
        out = [("status", Value.str "success"),
          ("recovery", Value.dict [("action", Value.str "noop"),
            ("retry_count", Value.int rc),
            ("transient", Value.bool tr)])]) := by
  subst hinfo hmsg hcd htr
  refine ⟨is_transient_iff _ _, ?_, ?_, ?_, ?_⟩
  · subst hsr
    simp [Bool.and_eq_true, decide_eq_true_iff]
  · intro hS
    unfold ErrorHandlerAgent.execute at h
    rw [hrc] at h
    simp only at h
    rw [← hsr] at h
    rw [hS] at h
    simp only [if_true] at h
    by_cases hz : cfg.backoff_factor = 0 ∧ rc < 0
    · simp [pyPow, hz, Except.map] at h
    · simp only [pyPow, hz, if_false, Except.map] at h
      simp only [Except.ok.injEq, Prod.mk.injEq] at h
      exact h.1.symm
  · intro hS htru
    unfold ErrorHandlerAgent.execute at h
    rw [hrc] at h
    simp only at h
    rw [← hsr] at h
    rw [hS] at h
    simp only [Bool.false_eq_true, if_false, htru, if_true] at h
    simp only [Except.ok.injEq, Prod.mk.injEq] at h
    exact h.1.symm
  · intro hS htru
    unfold ErrorHandlerAgent.execute at h
    rw [hrc] at h
    simp only at h
    rw [← hsr] at h
    rw [hS] at h
    simp only [Bool.false_eq_true, if_false, htru] at h
    simp only [Except.ok.injEq, Prod.mk.injEq] at h
    exact h.1.symm

/-- Concrete input for the C7 witness: a rate-limit error message with
retry count 0. -/
def wInput7 : Payload :=
  [("error", Value.dict [("message", Value.str "Rate limit exceeded")]),
   ("retry_count", Value.int 0)]

/-- Witness for C7 (amended claim): the spec example — message containing
"rate limit", retryCount 0, maxRetries 3, baseDelay 1, backoffFactor 2 —
retries with next retry count 1 and delay 1 * 2^0. -/
theorem errorHandler_execute_spec_witness :
    pyToInt (pyOrValue (vget wInput7 "retry_count") (Value.int 0)) = Except.ok 0
    ∧ (ErrorHandlerAgent.execute default_config ⟨[], none⟩ wInput7
        = Except.ok ([("status", Value.str "retry"),
            ("recovery", Value.dict [("action", Value.str "retry"),
              ("retry_count", Value.int (0 + 1)),
              ("delay_seconds", Value.rat
                (default_config.base_delay_seconds * default_config.backoff_factor ^ (0 : Int))),
              ("transient", Value.bool true)])],
          ⟨[⟨"Rate limit exceeded", "", 0, true⟩], some ⟨"Rate limit exceeded", "", 0, true⟩⟩))
    ∧ ([("status", Value.str "retry"),
        ("recovery", Value.dict [("action", Value.str "retry"),
          ("retry_count", Value.int (0 + 1)),
          ("delay_seconds", Value.rat
            (default_config.base_delay_seconds * default_config.backoff_factor ^ (0 : Int))),
          ("transient", Value.bool true)])] : Payload)
      = [("status", Value.str "retry"),
          ("recovery", Value.dict [("action", Value.str "retry"),
            ("retry_count", Value.int (0 + 1)),
            ("delay_seconds", Value.rat
              (default_config.base_delay_seconds * default_config.backoff_factor ^ (0 : Int))),
            ("transient", Value.bool true)])] := by
  refine ⟨rfl, rfl, ?_⟩
  exact (errorHandler_execute_spec default_config ⟨[], none⟩ wInput7 _ _ 0
    (error_info_of wInput7) (message_of (error_info_of wInput7))
    (code_of (error_info_of wInput7))
    (is_transient_of (message_of (error_info_of wInput7)) (code_of (error_info_of wInput7)))
    (is_transient_of (message_of (error_info_of wInput7)) (code_of (error_info_of wInput7))
      && decide ((0 : Int) < default_config.max_retries))
    rfl rfl rfl rfl rfl rfl rfl).2.2.1 rfl

/-- Concrete input for the C7 counterexample: a retry count but no error
and no exception entry. -/
def wInputNoError : Payload := [("retry_count", Value.int 1)]

/-- Claim C7 counterexample: the input \x7bretry_count: 1\x7d supplies no
error at all (no "error" entry and no "exception" entry), yet execute
reports status "failed" rather than "success": a non-empty input without
error keys is itself treated as the error information. -/
theorem errorHandler_no_error_still_failed :
    (dlookup wInputNoError "error" = none
      ∧ dlookup wInputNoError "exception" = none)
    ∧ ErrorHandlerAgent.execute default_config ⟨[], none⟩ wInputNoError
        = Except.ok ([("status", Value.str "failed"),
            ("recovery", Value.dict [("action", Value.str "halt"),
              ("retry_count", Value.int 1),
              ("transient", Value.bool false)])],
          ⟨[⟨"", "", 1, false⟩], some ⟨"", "", 1, false⟩⟩)
    ∧ Value.str "failed" ≠ Value.str "success" := by
  exact ⟨⟨rfl, rfl⟩, rfl, by simp⟩

/-! ## Approval gate (workflows/approval_gate.py)

Callbacks are stored by the gate keyed by request id; a callback itself is
identified by a natural number and its behavior (normal return or raising)
is supplied as a function parameter, so the embedded operations can report
the exact sequence of callback invocations they perform.  datetime.utcnow
readings are integer parameters; uuid4 ids are string parameters. -/

/-- The ApprovalStatus enumeration. -/
inductive ApprovalStatus where
  | pending
  | approved
  | rejected
  | expired
deriving DecidableEq, Repr

/-- The ApprovalAction enumeration. -/
inductive ApprovalAction where
  | send_email
  | apply_to_job
  | send_outreach
  | generate_document
  | schedule_interview
  | accept_offer
  | custom
deriving DecidableEq, Repr

/-- The ApprovalRequest model. -/
structure ApprovalRequest where
  request_id : String
  user_id : String
  action : ApprovalAction
  title : String
  description : String
  data : Payload
  status : ApprovalStatus
  created_at : Int
  reviewed_at : Option Int
  reviewed_by : Option String
  reviewer_notes : Option String
deriving Repr

/-- The argument a stored callback is invoked with: the workflow manager
calls it on the raw data dict, the approval gate on the request object. -/
inductive CbArg where
  | onData (d : Payload)
  | onRequest (r : ApprovalRequest)

/-- The behavior of the callback with a given identifier on a given
argument: normal return or a raised exception message. -/
abbrev CbBeh := Nat → CbArg → Except String Unit

/-- ApprovalGate state: the three status partitions plus the stored
callbacks, all keyed by request id. -/
structure ApprovalGate where
  pending_requests : List (String × ApprovalRequest)
  approved_requests : List (String × ApprovalRequest)
  rejected_requests : List (String × ApprovalRequest)
  callbacks : List (String × Nat)

/-- ApprovalGate.__init__. -/
def ApprovalGate.new : ApprovalGate := ⟨[], [], [], []⟩

/-- ApprovalGate.create_approval_request: build a pending request under the
freshly generated id, store it in the pending partition, and retain the
callback (if any) under the same id. -/
def ApprovalGate.create_approval_request (g : ApprovalGate) (request_id : String)
    (user_id : String) (action : ApprovalAction) (title description : String)
    (data : Payload) (callback : Option Nat) (now : Int) :
    ApprovalRequest × ApprovalGate :=
  let request : ApprovalRequest :=
    ⟨request_id, user_id, action, title, description, data,
      ApprovalStatus.pending, now, none, none, none⟩
  let g1 : ApprovalGate :=
    { g with pending_requests := dinsert g.pending_requests request_id request }
  match callback with
  | some k => (request, { g1 with callbacks := dinsert g1.callbacks request_id k })
  | none => (request, g1)

/-- ApprovalGate.get_request: search pending, then approved, then rejected. -/
def ApprovalGate.get_request (g : ApprovalGate) (request_id : String) :
    Option ApprovalRequest :=
  ((dlookup g.pending_requests request_id).or
    (dlookup g.approved_requests request_id)).or
    (dlookup g.rejected_requests request_id)

/-- ApprovalGate.get_pending_requests: the pending partition's values,
optionally filtered by owner. -/
def ApprovalGate.get_pending_requests (g : ApprovalGate) (user_id : Option String) :
    List ApprovalRequest :=
  match user_id with
  | some uid => (g.pending_requests.map Prod.snd).filter (fun r => r.user_id == uid)
  | none => g.pending_requests.map Prod.snd

/-- ApprovalGate.approve_request: fail if the id is not pending; otherwise
mark the request approved with reviewer metadata, move it from the pending
to the approved partition, and — when execute_callback is set and a
callback is stored — invoke the callback once with the updated request,
catching and discarding any exception it raises.  Returns the success flag,
the new gate state, and the list of callback invocations performed. -/
def ApprovalGate.approve_request (g : ApprovalGate) (beh : CbBeh)
    (request_id reviewed_by : String) (notes : Option String)
    (execute_callback : Bool) (now : Int) :
    Bool × ApprovalGate × List (Nat × CbArg) :=
  match dlookup g.pending_requests request_id with
  | none => (false, g, [])
  | some request =>
    let request2 := { request with
      status := ApprovalStatus.approved
      reviewed_at := some now
      reviewed_by := some reviewed_by
      reviewer_notes := notes }
    let g2 : ApprovalGate := { g with
      pending_requests := derase g.pending_requests request_id
      approved_requests := dinsert g.approved_requests request_id request2 }
    match execute_callback, dlookup g2.callbacks request_id with
    | true, some k =>
      match beh k (CbArg.onRequest request2) with
      | Except.ok _ => (true, g2, [(k, CbArg.onRequest request2)])
      | Except.error _ => (true, g2, [(k, CbArg.onRequest request2)])
    | true, none => (true, g2, [])
    | false, _ => (true, g2, [])

/-- ApprovalGate.reject_request: fail if the id is not pending; otherwise
mark the request rejected with reviewer metadata, move it from the pending
to the rejected partition, and discard any stored callback. -/
def ApprovalGate.reject_request (g : ApprovalGate)
    (request_id reviewed_by : String) (notes : Option String) (now : Int) :
    Bool × ApprovalGate :=
  match dlookup g.pending_requests request_id with
  | none => (false, g)
  | some request =>
    let request2 := { request with
      status := ApprovalStatus.rejected
      reviewed_at := some now
      reviewed_by := some reviewed_by
      reviewer_notes := notes }
    (true, { g with
      pending_requests := derase g.pending_requests request_id
      rejected_requests := dinsert g.rejected_requests request_id request2
      callbacks := derase g.callbacks request_id })

/-- ApprovalGate.cancel_request: only valid while pending; removes the
pending entry and its callback, returns false otherwise. -/
def ApprovalGate.cancel_request (g : ApprovalGate) (request_id : String) :
    Bool × ApprovalGate :=
  if (dlookup g.pending_requests request_id).isSome then
    (true, { g with
      pending_requests := derase g.pending_requests request_id
      callbacks := derase g.callbacks request_id })
  else (false, g)

/-- Whether a request counts as old for clear_old_requests: a truthy
reviewed_at strictly below the cutoff. -/
def is_old (cutoff : Int) (r : ApprovalRequest) : Bool :=
  match r.reviewed_at with
  | some t => decide (t < cutoff)
  | none => false

/-- ApprovalGate.clear_old_requests: drop approved and rejected entries
whose review timestamp is older than the cutoff, returning how many were
dropped; pending entries are never touched. -/
def ApprovalGate.clear_old_requests (g : ApprovalGate) (days : Int) (now : Int) :
    Nat × ApprovalGate :=
  let cutoff := now - days * 86400
  let keepA := g.approved_requests.filter (fun p => !(is_old cutoff p.2))
  let keepR := g.rejected_requests.filter (fun p => !(is_old cutoff p.2))
  ((g.approved_requests.length - keepA.length)
      + (g.rejected_requests.length - keepR.length),
    { g with
      approved_requests := keepA
      rejected_requests := keepR })

/-- ApprovalGate.get_user_requests: the three partitions filtered to one
owner. -/
def ApprovalGate.get_user_requests (g : ApprovalGate) (user_id : String) :
    List ApprovalRequest × List ApprovalRequest × List ApprovalRequest :=
  ((g.pending_requests.map Prod.snd).filter (fun r => r.user_id == user_id),
   (g.approved_requests.map Prod.snd).filter (fun r => r.user_id == user_id),
   (g.rejected_requests.map Prod.snd).filter (fun r => r.user_id == user_id))

/-- The reviewer-metadata update approve_request applies to a pending
request. -/
def approved_mark (r : ApprovalRequest) (reviewer : String) (notes : Option String)
    (now : Int) : ApprovalRequest :=
  { r with
    status := ApprovalStatus.approved
    reviewed_at := some now
    reviewed_by := some reviewer
    reviewer_notes := notes }

theorem dlookup_some_mem {α : Type} {d : List (String × α)} {key : String} {v : α}
    (h : dlookup d key = some v) : (key, v) ∈ d := by
  induction d with
  | nil => simp [dlookup] at h
  | cons p rest ih =>
    obtain ⟨k0, v0⟩ := p
    by_cases hk : key = k0
    · subst hk
      rw [dlookup, if_pos rfl] at h
      obtain rfl : v0 = v := Option.some.inj h
      exact List.mem_cons_self _ _
    · simp only [dlookup, if_neg hk] at h
      exact List.mem_cons_of_mem _ (ih h)

/-- Claim C3: approve(id, reviewer, notes, runCallback) returns false and
changes nothing when id is not pending; when id is pending it returns true,
records reviewer, review timestamp and notes with status approved, moves the
request from the pending to the approved partition (gone from the pending
lookup, still found by get with status approved), and invokes the stored
callback exactly once with the updated request when runCallback is set and a
callback exists; a raising callback is caught and discarded — the statement
holds for every callback behavior, the gate state never depends on it, and
no exception escapes (the embedded operation is total). -/
theorem approvalGate_approve_correct (g : ApprovalGate) (beh : CbBeh)
    (id reviewer : String) (notes : Option String) (run_cb : Bool) (now : Int) :
    (dlookup g.pending_requests id = none →
      g.approve_request beh id reviewer notes run_cb now = (false, g, []))
    ∧ (∀ r, dlookup g.pending_requests id = some r →
        ((g.approve_request beh id reviewer notes run_cb now).1 = true
          ∧ (g.approve_request beh id reviewer notes run_cb now).2.1
              = { g with
                  pending_requests := derase g.pending_requests id
                  approved_requests :=
                    dinsert g.approved_requests id (approved_mark r reviewer notes now) }
          ∧ dlookup
              (g.approve_request beh id reviewer notes run_cb now).2.1.pending_requests id
              = none
          ∧ (g.approve_request beh id reviewer notes run_cb now).2.1.get_request id
              = some (approved_mark r reviewer notes now)
          ∧ (approved_mark r reviewer notes now).status = ApprovalStatus.approved
          ∧ (g.approve_request beh id reviewer notes run_cb now).2.2
              = (match run_cb, dlookup g.callbacks id with
                 | true, some k => [(k, CbArg.onRequest (approved_mark r reviewer notes now))]
                 | _, _ => []))) := by
  constructor
  · intro h
    unfold ApprovalGate.approve_request
    rw [h]
  · intro r h
    have hmain : g.approve_request beh id reviewer notes run_cb now
        = (true,
           { g with
             pending_requests := derase g.pending_requests id
             approved_requests :=
               dinsert g.approved_requests id (approved_mark r reviewer notes now) },
           match run_cb, dlookup g.callbacks id with
           | true, some k => [(k, CbArg.onRequest (approved_mark r reviewer notes now))]
           | _, _ => []) := by
      unfold ApprovalGate.approve_request
      rw [h]
      simp only [approved_mark]
      rcases run_cb with _ | _
      · rfl
      · rcases hcb : dlookup g.callbacks id with _ | k
        · simp [hcb]
        · simp only [hcb]
          rcases beh k (CbArg.onRequest _) with e | u <;> rfl
    refine ⟨by rw [hmain], by rw [hmain], ?_, ?_, rfl, by rw [hmain]⟩
    · rw [hmain]
      simp [dlookup_derase]
    · rw [hmain]
      unfold ApprovalGate.get_request
      simp [dlookup_derase, dlookup_dinsert]

/-- Concrete pending request for the C3 witness. -/
def wReq3 : ApprovalRequest :=
  ⟨"r1", "u1", ApprovalAction.custom, "title", "desc", [],
    ApprovalStatus.pending, 0, none, none, none⟩

/-- Concrete gate for the C3 witness: one pending request with a stored
callback. -/
def wGate3 : ApprovalGate := ⟨[("r1", wReq3)], [], [], [("r1", 0)]⟩

/-- Callback behavior for the C3 witness: the callback raises, showing the
exception is caught and discarded. -/
def wBeh3 : CbBeh := fun _ _ => Except.error "callback exploded"

/-- Witness for C3: approving the pending request of the concrete gate
succeeds, removes it from pending, finds it via get with reviewer metadata,
and invokes the (raising) callback exactly once with the updated request. -/
theorem approvalGate_approve_correct_witness :
    dlookup wGate3.pending_requests "r1" = some wReq3
    ∧ (wGate3.approve_request wBeh3 "r1" "reviewer" none true 5).1 = true
    ∧ dlookup (wGate3.approve_request wBeh3 "r1" "reviewer" none true 5).2.1.pending_requests
        "r1" = none
    ∧ (wGate3.approve_request wBeh3 "r1" "reviewer" none true 5).2.1.get_request "r1"
        = some (approved_mark wReq3 "reviewer" none 5)
    ∧ (wGate3.approve_request wBeh3 "r1" "reviewer" none true 5).2.2
        = [(0, CbArg.onRequest (approved_mark wReq3 "reviewer" none 5))] := by
  have h := (approvalGate_approve_correct wGate3 wBeh3 "r1" "reviewer" none true 5).2
    wReq3 rfl
  exact ⟨rfl, h.1, h.2.2.1, h.2.2.2.1, h.2.2.2.2.2⟩

/-- A partition is well-formed for a status: every stored request carries
that status and its request_id field matches its key. -/
def PartitionOk (d : List (String × ApprovalRequest)) (s : ApprovalStatus) : Prop :=
  ∀ p ∈ d, (p : String × ApprovalRequest).2.status = s ∧ p.2.request_id = p.1

/-- No key of the first partition occurs in the second. -/
def DisjointKeys (a b : List (String × ApprovalRequest)) : Prop :=
  ∀ id ∈ dkeys a, id ∉ dkeys b

/-- The approval-gate invariant: each partition holds requests of its own
status under their own id, and the three partitions hold pairwise disjoint
id sets, so a request id belongs to at most one partition at a time. -/
def GateInv (g : ApprovalGate) : Prop :=
  PartitionOk g.pending_requests ApprovalStatus.pending
  ∧ PartitionOk g.approved_requests ApprovalStatus.approved
  ∧ PartitionOk g.rejected_requests ApprovalStatus.rejected
  ∧ DisjointKeys g.pending_requests g.approved_requests
  ∧ DisjointKeys g.pending_requests g.rejected_requests
  ∧ DisjointKeys g.approved_requests g.rejected_requests

theorem partitionOk_dinsert {d : List (String × ApprovalRequest)} {s : ApprovalStatus}
    {k : String} {r : ApprovalRequest} (hd : PartitionOk d s)
    (hs : r.status = s) (hid : r.request_id = k) :
    PartitionOk (dinsert d k r) s := by
  intro p hp
  rcases mem_of_mem_dinsert hp with h1 | h1
  · subst h1; exact ⟨hs, hid⟩
  · exact hd p h1

theorem partitionOk_derase {d : List (String × ApprovalRequest)} {s : ApprovalStatus}
    {k : String} (hd : PartitionOk d s) : PartitionOk (derase d k) s :=
  fun p hp => hd p (mem_of_mem_derase hp)

theorem partitionOk_filter {d : List (String × ApprovalRequest)} {s : ApprovalStatus}
    {f : String × ApprovalRequest → Bool} (hd : PartitionOk d s) :
    PartitionOk (d.filter f) s :=
  fun p hp => hd p (List.mem_filter.mp hp).1

theorem not_mem_dkeys_derase_self {α : Type} (d : List (String × α)) (k : String) :
    k ∉ dkeys (derase d k) := by
  intro h
  have := mem_dkeys_iff_dlookup.mp h
  rw [dlookup_derase] at this
  simp at this

theorem mem_dkeys_of_dlookup_some {α : Type} {d : List (String × α)} {key : String}
    {v : α} (h : dlookup d key = some v) : key ∈ dkeys d :=
  mem_dkeys_iff_dlookup.mpr (by simp [h])

theorem disjointKeys_filter_left {a b : List (String × ApprovalRequest)}
    {f : String × ApprovalRequest → Bool} (h : DisjointKeys a b) :
    DisjointKeys (a.filter f) b := by
  intro id hid
  refine h id ?_
  rw [dkeys, List.mem_map] at hid ⊢
  obtain ⟨p, hp, hpk⟩ := hid
  exact ⟨p, (List.mem_filter.mp hp).1, hpk⟩

theorem disjointKeys_filter_right {a b : List (String × ApprovalRequest)}
    {f : String × ApprovalRequest → Bool} (h : DisjointKeys a b) :
    DisjointKeys a (b.filter f) := by
  intro id hid hmem
  refine h id hid ?_
  rw [dkeys, List.mem_map] at hmem ⊢
  obtain ⟨p, hp, hpk⟩ := hmem
  exact ⟨p, (List.mem_filter.mp hp).1, hpk⟩

theorem gateInv_create (g : ApprovalGate) (id uid : String) (action : ApprovalAction)
    (title desc : String) (data : Payload) (cb : Option Nat) (now : Int)
    (hinv : GateInv g)
    (hp : id ∉ dkeys g.pending_requests)
    (ha : id ∉ dkeys g.approved_requests)
    (hr : id ∉ dkeys g.rejected_requests) :
    GateInv (g.create_approval_request id uid action title desc data cb now).2 := by
  obtain ⟨h1, h2, h3, h4, h5, h6⟩ := hinv
  have hcore : ∀ req : ApprovalRequest, req.status = ApprovalStatus.pending →
      req.request_id = id →
      GateInv { g with pending_requests := dinsert g.pending_requests id req } := by
    intro req hs hid
    refine ⟨partitionOk_dinsert h1 hs hid, h2, h3, ?_, ?_, h6⟩
    · intro x hx
      rcases mem_dkeys_dinsert hx with h | h
      · rw [h]; exact ha
      · exact h4 x h
    · intro x hx
      rcases mem_dkeys_dinsert hx with h | h
      · rw [h]; exact hr
      · exact h5 x h
  unfold ApprovalGate.create_approval_request
  rcases cb with _ | k
  · exact hcore _ rfl rfl
  · exact hcore _ rfl rfl

theorem gateInv_approve (g : ApprovalGate) (beh : CbBeh) (id reviewer : String)
    (notes : Option String) (run_cb : Bool) (now : Int) (hinv : GateInv g) :
    GateInv (g.approve_request beh id reviewer notes run_cb now).2.1 := by
  obtain ⟨h1, h2, h3, h4, h5, h6⟩ := hinv
  rcases hlu : dlookup g.pending_requests id with _ | r
  · have hfix := (approvalGate_approve_correct g beh id reviewer notes run_cb now).1 hlu
    rw [hfix]
    exact ⟨h1, h2, h3, h4, h5, h6⟩
  · have hid_mem : id ∈ dkeys g.pending_requests := mem_dkeys_of_dlookup_some hlu
    have hr_id : r.request_id = id := (h1 (id, r) (dlookup_some_mem hlu)).2
    have hfix := ((approvalGate_approve_correct g beh id reviewer notes run_cb now).2 r hlu).2.1
    rw [hfix]
    refine ⟨partitionOk_derase h1,
      partitionOk_dinsert h2 rfl (by simp [approved_mark, hr_id]), h3, ?_, ?_, ?_⟩
    · intro x hx hmem
      have hx_orig : x ∈ dkeys g.pending_requests := mem_dkeys_derase hx
      rcases mem_dkeys_dinsert hmem with h | h
      · subst h; exact not_mem_dkeys_derase_self g.pending_requests x hx
      · exact h4 x hx_orig h
    · intro x hx
      exact h5 x (mem_dkeys_derase hx)
    · intro x hx
      rcases mem_dkeys_dinsert hx with h | h
      · subst h; exact h5 x hid_mem
      · exact h6 x h

theorem gateInv_reject (g : ApprovalGate) (id reviewer : String)
    (notes : Option String) (now : Int) (hinv : GateInv g) :
    GateInv (g.reject_request id reviewer notes now).2 := by
  obtain ⟨h1, h2, h3, h4, h5, h6⟩ := hinv
  unfold ApprovalGate.reject_request
  rcases hlu : dlookup g.pending_requests id with _ | r
  · exact ⟨h1, h2, h3, h4, h5, h6⟩
  · have hid_mem : id ∈ dkeys g.pending_requests := mem_dkeys_of_dlookup_some hlu
    have hr_id : r.request_id = id := (h1 (id, r) (dlookup_some_mem hlu)).2
    refine ⟨partitionOk_derase h1, h2,
      partitionOk_dinsert h3 rfl (by simp [hr_id]), ?_, ?_, ?_⟩
    · intro x hx
      exact h4 x (mem_dkeys_derase hx)
    · intro x hx hmem
      have hx_orig : x ∈ dkeys g.pending_requests := mem_dkeys_derase hx
      rcases mem_dkeys_dinsert hmem with h | h
      · subst h; exact not_mem_dkeys_derase_self g.pending_requests x hx
      · exact h5 x hx_orig h
    · intro x hx hmem
      rcases mem_dkeys_dinsert hmem with h | h
      · rw [h] at hx
        exact h4 id hid_mem hx
      · exact h6 x hx h

theorem gateInv_cancel (g : ApprovalGate) (id : String) (hinv : GateInv g) :
    GateInv (g.cancel_request id).2 := by
  obtain ⟨h1, h2, h3, h4, h5, h6⟩ := hinv
  unfold ApprovalGate.cancel_request
  by_cases hlu : (dlookup g.pending_requests id).isSome
  · simp only [hlu, if_true]
    refine ⟨partitionOk_derase h1, h2, h3, ?_, ?_, h6⟩
    · intro x hx
      exact h4 x (mem_dkeys_derase hx)
    · intro x hx
      exact h5 x (mem_dkeys_derase hx)
  · simp only [hlu, Bool.false_eq_true, if_false]
    exact ⟨h1, h2, h3, h4, h5, h6⟩

theorem gateInv_clear_old (g : ApprovalGate) (days now : Int) (hinv : GateInv g) :
    GateInv (g.clear_old_requests days now).2 := by
  obtain ⟨h1, h2, h3, h4, h5, h6⟩ := hinv
  exact ⟨h1, partitionOk_filter h2, partitionOk_filter h3,
    disjointKeys_filter_right h4, disjointKeys_filter_right h5,
    disjointKeys_filter_right (disjointKeys_filter_left h6)⟩

/-- Claim C5: the gate invariant — every id in at most one partition, with
the stored status matching the partition — holds initially and is preserved
by createRequest (under freshness of the generated id), approve, reject,
cancel, and purge (the reads return values and do not produce a new state);
and movement is one-directional: cancel on an id in the approved or rejected
partition returns false and leaves the gate, and hence that request,
untouched. -/
theorem approvalGate_invariant_preserved (beh : CbBeh) :
    GateInv ApprovalGate.new
    ∧ (∀ g id uid action title desc data cb now, GateInv g →
        id ∉ dkeys g.pending_requests → id ∉ dkeys g.approved_requests →
        id ∉ dkeys g.rejected_requests →
        GateInv (g.create_approval_request id uid action title desc data cb now).2)
    ∧ (∀ g id reviewer notes run_cb now, GateInv g →
        GateInv (g.approve_request beh id reviewer notes run_cb now).2.1)
    ∧ (∀ g id reviewer notes now, GateInv g →
        GateInv (g.reject_request id reviewer notes now).2)
    ∧ (∀ g id, GateInv g → GateInv (g.cancel_request id).2)
    ∧ (∀ g days now, GateInv g → GateInv (g.clear_old_requests days now).2)
    ∧ (∀ g id, GateInv g →
        (id ∈ dkeys g.approved_requests ∨ id ∈ dkeys g.rejected_requests) →
        g.cancel_request id = (false, g)) := by
  refine ⟨?_, ?_, ?_, ?_, ?_, ?_, ?_⟩
  · refine ⟨?_, ?_, ?_, ?_, ?_, ?_⟩ <;> intro p hp <;> simp [ApprovalGate.new, dkeys] at hp
  · intro g id uid action title desc data cb now hinv hp ha hr
    exact gateInv_create g id uid action title desc data cb now hinv hp ha hr
  · intro g id reviewer notes run_cb now hinv
    exact gateInv_approve g beh id reviewer notes run_cb now hinv
  · intro g id reviewer notes now hinv
    exact gateInv_reject g id reviewer notes now hinv
  · intro g id hinv
    exact gateInv_cancel g id hinv
  · intro g days now hinv
    exact gateInv_clear_old g days now hinv
  · intro g id hinv hmem
    have hnp : id ∉ dkeys g.pending_requests := by
      intro hpend
      rcases hmem with h | h
      · exact hinv.2.2.2.1 id hpend h
      · exact hinv.2.2.2.2.1 id hpend h
    have hlu : dlookup g.pending_requests id = none := dlookup_eq_none_of_not_mem hnp
    unfold ApprovalGate.cancel_request
    rw [hlu]
    rfl

/-- Concrete approved request for the C5 witness. -/
def wReq5 : ApprovalRequest :=
  ⟨"a1", "u1", ApprovalAction.custom, "title", "desc", [],
    ApprovalStatus.approved, 0, some 1, some "rev", none⟩

/-- Concrete gate for the C5 witness: one approved request, nothing else. -/
def wGate5 : ApprovalGate := ⟨[], [("a1", wReq5)], [], []⟩

/-- Witness for C5: the concrete gate satisfies the invariant, and cancel on
its approved id returns false and leaves the gate untouched. -/
theorem approvalGate_invariant_preserved_witness :
    GateInv wGate5
    ∧ "a1" ∈ dkeys wGate5.approved_requests
    ∧ wGate5.cancel_request "a1" = (false, wGate5) := by
  have hinv : GateInv wGate5 := by
    refine ⟨?_, ?_, ?_, ?_, ?_, ?_⟩ <;> intro p hp <;>
      simp [wGate5, dkeys] at hp ⊢ <;> simp [hp, wReq5]
  have hmem : "a1" ∈ dkeys wGate5.approved_requests := by simp [wGate5, dkeys]
  exact ⟨hinv, hmem,
    (approvalGate_invariant_preserved (fun _ _ => Except.ok ())).2.2.2.2.2.2
      wGate5 "a1" hinv (Or.inl hmem)⟩

/-! ## Workflow policy manager (workflows/workflow_manager.py) -/

/-- One registered workflow configuration. -/
structure WorkflowConfig where
  name : String
  action : ApprovalAction
  requires_approval : Bool
  auto_approve_conditions : Payload
deriving Repr

/-- WorkflowManager state: the registered workflow configurations keyed by
workflow id. -/
structure WorkflowManager where
  workflow_configs : List (String × WorkflowConfig)

/-- WorkflowManager.register_workflow (auto_approve_conditions or \x7b\x7d). -/
def WorkflowManager.register_workflow (m : WorkflowManager) (workflow_id name : String)
    (action : ApprovalAction) (requires_approval : Bool)
    (auto_approve_conditions : Option Payload) : WorkflowManager :=
  ⟨dinsert m.workflow_configs workflow_id
    ⟨name, action, requires_approval, auto_approve_conditions.getD []⟩⟩

/-- WorkflowManager._check_auto_approve: false on an empty condition set;
otherwise every condition key must be present in the data with a
Python-== equal value. -/
def check_auto_approve (conditions data : Payload) : Bool :=
  if conditions.isEmpty then false
  else conditions.all (fun p =>
    match dlookup data p.1 with
    | some v => pyEq v p.2
    | none => false)

/-- WorkflowManager._generate_description. -/
def generate_description (workflow_id : String) (data : Payload) : String :=
  if workflow_id == "send_email" then
    "Send email to " ++ pyStr (vgetD data "to" (Value.str "recipient")) ++ ": "
      ++ pyStr (vgetD data "subject" (Value.str "No subject"))
  else if workflow_id == "apply_to_job" then
    "Apply to " ++ pyStr (vgetD data "job_title" (Value.str "job")) ++ " at "
      ++ pyStr (vgetD data "company" (Value.str "company"))
  else if workflow_id == "send_outreach" then
    "Send outreach message to " ++ pyStr (vgetD data "contact_name" (Value.str "contact"))
  else
    "Execute " ++ workflow_id ++ " workflow"

/-- WorkflowManager.execute_workflow: unknown id fails; a workflow not
requiring approval executes the callback now; satisfied auto-approve
conditions execute the callback now with auto_approved set; otherwise a
pending approval request carrying the callback is created.  A raising
callback yields the success-false error result.  Returns the result dict,
the (possibly extended) gate, and the callback invocations performed. -/
def WorkflowManager.execute_workflow (m : WorkflowManager) (gate : ApprovalGate)
    (beh : CbBeh) (workflow_id user_id : String) (data : Payload)
    (callback : Option Nat) (fresh_id : String) (now : Int) :
    Payload × ApprovalGate × List (Nat × CbArg) :=
  match dlookup m.workflow_configs workflow_id with
  | none =>
    ([("success", Value.bool false),
      ("error", Value.str ("Unknown workflow: " ++ workflow_id))], gate, [])
  | some config =>
    if !config.requires_approval then
      match callback with
      | some k =>
        match beh k (CbArg.onData data) with
        | Except.ok _ =>
          ([("success", Value.bool true), ("executed", Value.bool true)], gate,
            [(k, CbArg.onData data)])
        | Except.error e =>
          ([("success", Value.bool false), ("error", Value.str e)], gate,
            [(k, CbArg.onData data)])
      | none => ([("success", Value.bool true), ("executed", Value.bool true)], gate, [])
    else if check_auto_approve config.auto_approve_conditions data then
      match callback with
      | some k =>
        match beh k (CbArg.onData data) with
        | Except.ok _ =>
          ([("success", Value.bool true), ("executed", Value.bool true),
            ("auto_approved", Value.bool true)], gate, [(k, CbArg.onData data)])
        | Except.error e =>
          ([("success", Value.bool false), ("error", Value.str e)], gate,
            [(k, CbArg.onData data)])
      | none =>
        ([("success", Value.bool true), ("executed", Value.bool true),
          ("auto_approved", Value.bool true)], gate, [])
    else
      let rg := gate.create_approval_request fresh_id user_id config.action config.name
        (generate_description workflow_id data) data callback now
      ([("success", Value.bool true), ("executed", Value.bool false),
        ("approval_required", Value.bool true),
        ("request_id", Value.str rg.1.request_id)], rg.2, [])

/-- The auto-approve criterion as the specification words it: a non-empty
condition set, every key of which is present in the payload with an equal
value (conjunctive; an empty condition set never auto-approves). -/
def autoApproveSpec (conditions data : Payload) : Prop :=
  conditions ≠ []
  ∧ ∀ p ∈ conditions, ∃ v, dlookup data (p : String × Value).1 = some v ∧ pyEq v p.2 = true

theorem check_auto_approve_iff (conditions data : Payload) :
    check_auto_approve conditions data = true ↔ autoApproveSpec conditions data := by
  unfold check_auto_approve autoApproveSpec
  by_cases hc : conditions.isEmpty
  · have : conditions = [] := by simpa [List.isEmpty_iff] using hc
    subst this
    simp
  · have hne : conditions ≠ [] := by simpa [List.isEmpty_iff] using hc
    simp only [hc, Bool.false_eq_true, if_false, List.all_eq_true, ne_eq, hne,
      not_false_iff, true_and]
    constructor
    · intro hall p hp
      have := hall p hp
      rcases hd : dlookup data p.1 with _ | v
      · rw [hd] at this; simp at this
      · rw [hd] at this; exact ⟨v, rfl, this⟩
    · intro hall p hp
      obtain ⟨v, hv, hpe⟩ := hall p hp
      rw [hv]
      exact hpe

/-- The pending request created on the approval-required path. -/
def created_request (config : WorkflowConfig) (workflow_id user_id : String)
    (data : Payload) (fresh_id : String) (now : Int) : ApprovalRequest :=
  ⟨fresh_id, user_id, config.action, config.name,
    generate_description workflow_id data, data, ApprovalStatus.pending, now,
    none, none, none⟩

/-- Claim C4: on a workflow requiring approval, with a callback whose
invocation returns normally, run executes the callback immediately and
returns executed true with auto_approved true iff the auto-approve
condition set is non-empty and every condition key is present in the
payload with an equal value (the imperative check refines that conjunctive
criterion, and an empty set never auto-approves), creating no approval
request in that case; otherwise it creates exactly one pending approval
request carrying the callback and returns executed false,
approval_required true and the fresh request id, without invoking the
callback. -/
theorem workflowManager_auto_approve_correct (m : WorkflowManager) (gate : ApprovalGate)
    (beh : CbBeh) (wid uid : String) (data : Payload) (k : Nat)
    (fresh_id : String) (nowv : Int) (config : WorkflowConfig)
    (hcfg : dlookup m.workflow_configs wid = some config)
    (hra : config.requires_approval = true)
    (hok : beh k (CbArg.onData data) = Except.ok ())
    (hfresh : fresh_id ∉ dkeys gate.pending_requests) :
    (check_auto_approve config.auto_approve_conditions data = true
      ↔ autoApproveSpec config.auto_approve_conditions data)
    ∧ ((dlookup (m.execute_workflow gate beh wid uid data (some k) fresh_id nowv).1
          "executed" = some (Value.bool true)
        ∧ dlookup (m.execute_workflow gate beh wid uid data (some k) fresh_id nowv).1
            "auto_approved" = some (Value.bool true))
        ↔ check_auto_approve config.auto_approve_conditions data = true)
    ∧ (check_auto_approve config.auto_approve_conditions data = true →
        m.execute_workflow gate beh wid uid data (some k) fresh_id nowv
          = ([("success", Value.bool true), ("executed", Value.bool true),
              ("auto_approved", Value.bool true)], gate, [(k, CbArg.onData data)]))
    ∧ (check_auto_approve config.auto_approve_conditions data = false →
        ((m.execute_workflow gate beh wid uid data (some k) fresh_id nowv).1
            = [("success", Value.bool true), ("executed", Value.bool false),
               ("approval_required", Value.bool true), ("request_id", Value.str fresh_id)]
          ∧ (m.execute_workflow gate beh wid uid data (some k) fresh_id nowv).2.1.pending_requests
              = gate.pending_requests
                  ++ [(fresh_id, created_request config wid uid data fresh_id nowv)]
          ∧ (m.execute_workflow gate beh wid uid data (some k) fresh_id nowv).2.1.callbacks
              = dinsert gate.callbacks fresh_id k
          ∧ (m.execute_workflow gate beh wid uid data (some k) fresh_id nowv).2.1.approved_requests
              = gate.approved_requests
          ∧ (m.execute_workflow gate beh wid uid data (some k) fresh_id nowv).2.1.rejected_requests
              = gate.rejected_requests
          ∧ (m.execute_workflow gate beh wid uid data (some k) fresh_id nowv).2.2 = [])) := by
  have hbase : ∀ P : Payload × ApprovalGate × List (Nat × CbArg) → Prop,
      (P (if check_auto_approve config.auto_approve_conditions data then
            ([("success", Value.bool true), ("executed", Value.bool true),
              ("auto_approved", Value.bool true)], gate, [(k, CbArg.onData data)])
          else
            (let rg := gate.create_approval_request fresh_id uid config.action config.name
              (generate_description wid data) data (some k) nowv
             ([("success", Value.bool true), ("executed", Value.bool false),
               ("approval_required", Value.bool true),
               ("request_id", Value.str rg.1.request_id)], rg.2, [])))) →
      P (m.execute_workflow gate beh wid uid data (some k) fresh_id nowv) := by
    intro P hP
    unfold WorkflowManager.execute_workflow
    rw [hcfg]
    simp only [hra, Bool.not_true, Bool.false_eq_true, if_false]
    by_cases hchk : check_auto_approve config.auto_approve_conditions data
    · rw [if_pos hchk] at hP
      simp only [hchk, if_true, hok]
      exact hP
    · rw [if_neg hchk] at hP
      simp only [hchk, Bool.false_eq_true, if_false]
      exact hP
  refine ⟨check_auto_approve_iff _ _, ?_, ?_, ?_⟩
  · by_cases hchk : check_auto_approve config.auto_approve_conditions data
    · refine hbase (fun res => (dlookup res.1 "executed" = some (Value.bool true)
          ∧ dlookup res.1 "auto_approved" = some (Value.bool true))
          ↔ check_auto_approve config.auto_approve_conditions data = true) ?_
      rw [if_pos hchk]
      simp [dlookup, hchk]
    · refine hbase (fun res => (dlookup res.1 "executed" = some (Value.bool true)
          ∧ dlookup res.1 "auto_approved" = some (Value.bool true))
          ↔ check_auto_approve config.auto_approve_conditions data = true) ?_
      rw [if_neg hchk]
      simp [dlookup, hchk]
  · intro hchk
    refine hbase (fun res => res = ([("success", Value.bool true),
        ("executed", Value.bool true), ("auto_approved", Value.bool true)], gate,
        [(k, CbArg.onData data)])) ?_
    rw [if_pos hchk]
  · intro hchk
    refine hbase (fun res =>
        (res.1 = [("success", Value.bool true), ("executed", Value.bool false),
            ("approval_required", Value.bool true), ("request_id", Value.str fresh_id)]
          ∧ res.2.1.pending_requests
              = gate.pending_requests
                  ++ [(fresh_id, created_request config wid uid data fresh_id nowv)]
          ∧ res.2.1.callbacks = dinsert gate.callbacks fresh_id k
          ∧ res.2.1.approved_requests = gate.approved_requests
          ∧ res.2.1.rejected_requests = gate.rejected_requests
          ∧ res.2.2 = [])) ?_
    rw [if_neg (by simp [hchk])]
    refine ⟨rfl, ?_, rfl, rfl, rfl, rfl⟩
    simp only [ApprovalGate.create_approval_request, created_request]
    exact dinsert_eq_append_of_not_mem _ hfresh

/-- Concrete approval-requiring workflow configuration with the condition
amount = 0, as in the specification's test property. -/
def wCfg4 : WorkflowConfig :=
  ⟨"Wf", ApprovalAction.custom, true, [("amount", Value.int 0)]⟩

/-- Concrete manager for the C4 and C10 witnesses. -/
def wMgr4 : WorkflowManager := ⟨[("wf", wCfg4)]⟩

/-- A callback behavior that always returns normally. -/
def wBehOk : CbBeh := fun _ _ => Except.ok ()

/-- Witness for C4: payload amount = 0 satisfies the condition, so the
workflow executes immediately with auto_approved, invoking the callback
once and creating no approval request. -/
theorem workflowManager_auto_approve_correct_witness :
    (dlookup wMgr4.workflow_configs "wf" = some wCfg4
      ∧ wCfg4.requires_approval = true
      ∧ wBehOk 0 (CbArg.onData [("amount", Value.int 0)]) = Except.ok ()
      ∧ "f1" ∉ dkeys ApprovalGate.new.pending_requests)
    ∧ check_auto_approve wCfg4.auto_approve_conditions [("amount", Value.int 0)] = true
    ∧ wMgr4.execute_workflow ApprovalGate.new wBehOk "wf" "u1" [("amount", Value.int 0)]
        (some 0) "f1" 7
      = ([("success", Value.bool true), ("executed", Value.bool true),
          ("auto_approved", Value.bool true)], ApprovalGate.new,
         [(0, CbArg.onData [("amount", Value.int 0)])]) := by
  have hfresh : "f1" ∉ dkeys ApprovalGate.new.pending_requests := by
    simp [ApprovalGate.new, dkeys]
  have hchk : check_auto_approve wCfg4.auto_approve_conditions
      [("amount", Value.int 0)] = true := by rfl
  exact ⟨⟨rfl, rfl, rfl, hfresh⟩, hchk,
    (workflowManager_auto_approve_correct wMgr4 ApprovalGate.new wBehOk "wf" "u1"
      [("amount", Value.int 0)] 0 "f1" 7 wCfg4 rfl rfl rfl hfresh).2.2.1 hchk⟩

/-- Claim C6: run on an unregistered workflow id returns the failure result
without invoking any callback or touching the gate; on a workflow with
requires_approval false it invokes the callback synchronously (when
present and returning normally) and returns executed true, and the gate is
never extended on this path. -/
theorem workflowManager_direct_path (m : WorkflowManager) (gate : ApprovalGate)
    (beh : CbBeh) (wid uid : String) (data : Payload) (fresh_id : String) (now : Int) :
    (dlookup m.workflow_configs wid = none →
      ∀ callback, m.execute_workflow gate beh wid uid data callback fresh_id now
        = ([("success", Value.bool false),
            ("error", Value.str ("Unknown workflow: " ++ wid))], gate, []))
    ∧ (∀ config, dlookup m.workflow_configs wid = some config →
        config.requires_approval = false →
        (m.execute_workflow gate beh wid uid data none fresh_id now
            = ([("success", Value.bool true), ("executed", Value.bool true)], gate, [])
          ∧ ∀ k, beh k (CbArg.onData data) = Except.ok () →
              m.execute_workflow gate beh wid uid data (some k) fresh_id now
                = ([("success", Value.bool true), ("executed", Value.bool true)], gate,
                   [(k, CbArg.onData data)]))) := by
  constructor
  · intro hu callback
    unfold WorkflowManager.execute_workflow
    rw [hu]
  · intro config hcfg hra
    constructor
    · unfold WorkflowManager.execute_workflow
      rw [hcfg]
      simp [hra]
    · intro k hok
      unfold WorkflowManager.execute_workflow
      rw [hcfg]
      simp [hra, hok]

/-- Concrete no-approval workflow configuration for the C6 witness. -/
def wCfg6 : WorkflowConfig := ⟨"Gen", ApprovalAction.generate_document, false, []⟩

/-- Concrete manager for the C6 witness. -/
def wMgr6 : WorkflowManager := ⟨[("doc", wCfg6)]⟩

/-- Witness for C6: an unknown id fails without side effects, and the
no-approval workflow executes its callback synchronously with the gate
untouched. -/
theorem workflowManager_direct_path_witness :
    (dlookup wMgr6.workflow_configs "nope" = none
      ∧ dlookup wMgr6.workflow_configs "doc" = some wCfg6
      ∧ wCfg6.requires_approval = false
      ∧ wBehOk 0 (CbArg.onData [("x", Value.int 1)]) = Except.ok ())
    ∧ wMgr6.execute_workflow ApprovalGate.new wBehOk "nope" "u1" [("x", Value.int 1)]
        none "f1" 0
      = ([("success", Value.bool false),
          ("error", Value.str ("Unknown workflow: " ++ "nope"))], ApprovalGate.new, [])
    ∧ wMgr6.execute_workflow ApprovalGate.new wBehOk "doc" "u1" [("x", Value.int 1)]
        (some 0) "f1" 0
      = ([("success", Value.bool true), ("executed", Value.bool true)], ApprovalGate.new,
         [(0, CbArg.onData [("x", Value.int 1)])]) := by
  have ha := (workflowManager_direct_path wMgr6 ApprovalGate.new wBehOk "nope" "u1"
    [("x", Value.int 1)] "f1" 0).1 rfl none
  have hb := ((workflowManager_direct_path wMgr6 ApprovalGate.new wBehOk "doc" "u1"
    [("x", Value.int 1)] "f1" 0).2 wCfg6 rfl rfl).2 0 rfl
  exact ⟨⟨rfl, rfl, rfl, rfl⟩, ha, hb⟩

/-- Claim C10: on both immediate-execution paths (requires_approval false,
or auto-approve conditions satisfied), a raising callback makes run return
the success-false result carrying the exception message, with no executed
flag at all; the exception does not escape (the embedded operation is
total) and the gate — hence the set of approval requests — is unchanged. -/
theorem workflowManager_callback_raises (m : WorkflowManager) (gate : ApprovalGate)
    (beh : CbBeh) (wid uid : String) (data : Payload) (k : Nat)
    (fresh_id : String) (now : Int) (e : String) (config : WorkflowConfig)
    (hcfg : dlookup m.workflow_configs wid = some config)
    (herr : beh k (CbArg.onData data) = Except.error e) :
    dlookup [("success", Value.bool false), ("error", Value.str e)] "executed" = none
    ∧ (config.requires_approval = false →
        m.execute_workflow gate beh wid uid data (some k) fresh_id now
          = ([("success", Value.bool false), ("error", Value.str e)], gate,
             [(k, CbArg.onData data)]))
    ∧ (config.requires_approval = true →
        check_auto_approve config.auto_approve_conditions data = true →
        m.execute_workflow gate beh wid uid data (some k) fresh_id now
          = ([("success", Value.bool false), ("error", Value.str e)], gate,
             [(k, CbArg.onData data)])) := by
  refine ⟨rfl, ?_, ?_⟩
  · intro hra
    unfold WorkflowManager.execute_workflow
    rw [hcfg]
    simp [hra, herr]
  · intro hra hchk
    unfold WorkflowManager.execute_workflow
    rw [hcfg]
    simp [hra, hchk, herr]

/-- A callback behavior that always raises. -/
def wBehErr : CbBeh := fun _ _ => Except.error "cb fail"

/-- Witness for C10: the auto-approved workflow with a raising callback
returns success false with the exception message, no executed flag, and an
unchanged gate. -/
theorem workflowManager_callback_raises_witness :
    (dlookup wMgr4.workflow_configs "wf" = some wCfg4
      ∧ wBehErr 0 (CbArg.onData [("amount", Value.int 0)]) = Except.error "cb fail"
      ∧ wCfg4.requires_approval = true
      ∧ check_auto_approve wCfg4.auto_approve_conditions [("amount", Value.int 0)] = true)
    ∧ wMgr4.execute_workflow ApprovalGate.new wBehErr "wf" "u1" [("amount", Value.int 0)]
        (some 0) "f1" 0
      = ([("success", Value.bool false), ("error", Value.str "cb fail")], ApprovalGate.new,
         [(0, CbArg.onData [("amount", Value.int 0)])])
    ∧ dlookup [("success", Value.bool false), ("error", Value.str "cb fail")] "executed"
        = none := by
  have h := workflowManager_callback_raises wMgr4 ApprovalGate.new wBehErr "wf" "u1"
    [("amount", Value.int 0)] 0 "f1" 0 "cb fail" wCfg4 rfl rfl
  exact ⟨⟨rfl, rfl, rfl, rfl⟩, h.2.2 rfl rfl, h.1⟩

end Jobly
